import Mathlib

set_option maxRecDepth 8000

/-!
# Verification of the solar dashboard data pipeline

Shallow embedding of `src/app/utils.py` and `src/app/main.py` of the
`solar-challenge-week0` repository, together with proofs settling the
frozen claims about its specification.

Modelling conventions:
* A dataframe row is an `SRecord` (country tag, timestamp, GHI value).
  Timestamps are hours since 2022-01-01 00:00 (the start of the fixed
  synthetic window); GHI values are rationals (the float arithmetic of
  the source is embedded as exact rational arithmetic).
* A per-country CSV file is a `FileData`: either absent (raising
  `FileNotFoundError` when read) or present with a flag recording whether
  its TIMESTAMP column parses, a flag for the presence of the GHI column,
  and its (timestamp, GHI) rows.
* `np.random.normal(loc, scale, n)` is embedded as
  `loc + scale * z c i` for an arbitrary noise oracle `z`, so that the
  clamping and shape properties can be proved for every draw.
* Streamlit side effects (`st.warning`) are modelled by returning the
  chronological list of emitted warnings next to the result; exceptions
  are modelled with `Except`.
-/

deriving instance DecidableEq for Except

namespace Solar

/-- One row of the combined dataframe: country tag, timestamp
(hours since 2022-01-01 00:00) and the GHI measurement. -/
structure SRecord where
  country : String
  ts : ℕ
  ghi : ℚ
deriving DecidableEq

/-- The content found at a country's expected CSV path:
the file is missing (reading raises `FileNotFoundError`), or present with
a flag telling whether its TIMESTAMP column parses (`pd.to_datetime`
raises otherwise), a flag for presence of the GHI column, and its rows. -/
inductive FileData where
  | missing : FileData
  | present (tsOk : Bool) (hasGHI : Bool) (rows : List (ℕ × ℚ)) : FileData
deriving DecidableEq

/-- The filesystem seen by the loader: what each country's path holds. -/
def FileInput : Type := String → FileData

/-- A user-visible `st.warning` emitted by the loader. -/
inductive Warning where
  | missingGHI (c : String) : Warning
  | usingMock : Warning
deriving DecidableEq

/-- Errors escaping `load_and_preprocess_data`: an uncaught parse error
from `pd.to_datetime`, or the explicit `ValueError` raised when no data
was produced ("No objects to concatenate"). `FileNotFoundError` is caught
inside the function and never escapes. -/
inductive LoadError where
  | parseError : LoadError
  | noData : LoadError
deriving DecidableEq

/-- Errors aborting the real-data loop (`utils.py` lines 21-41):
a missing file (caught, triggers the mock fallback) or an uncaught
timestamp parse failure. -/
inductive RealError where
  | fnf : RealError
  | parse : RealError
deriving DecidableEq

/-- `COUNTRIES` from `utils.py` line 8. -/
def COUNTRIES : List String := ["Benin", "Sierra_Leone", "Togo"]

/-- Whether reading and parsing this file succeeds (missing files fail
with `FileNotFoundError` before parsing is reached, so parsing is
vacuously fine for them). -/
def fileParses : FileData → Bool
  | .missing => true
  | .present tsOk _ _ => tsOk

/-- Whether the file is present and its dataframe has a GHI column. -/
def fileHasGHI : FileData → Bool
  | .missing => false
  | .present _ hasGHI _ => hasGHI

/-- The (timestamp, GHI) rows of a present file. -/
def fileRows : FileData → List (ℕ × ℚ)
  | .missing => []
  | .present _ _ rows => rows

/-- The per-country frame `df[['GHI', 'Country']]` appended at
`utils.py` line 39: each row tagged with its country. -/
def frame (c : String) (rows : List (ℕ × ℚ)) : List SRecord :=
  rows.map (fun p => ⟨c, p.1, p.2⟩)

/-- The real-data loop of `utils.py` lines 21-41: read each country's CSV
in order; a missing file aborts the loop with `FileNotFoundError` (caught
by the caller), an unparseable TIMESTAMP column aborts it with an uncaught
exception; a present file without a GHI column emits a warning and is
skipped.  Returns the collected frames (or the aborting error) together
with the warnings emitted before the loop ended. -/
def loadRealFrames (cs : List String) (input : FileInput) :
    Except RealError (List (List SRecord)) × List Warning :=
  match cs with
  | [] => (.ok [], [])
  | c :: rest =>
    match input c with
    | .missing => (.error .fnf, [])
    | .present tsOk hasGHI rows =>
      if tsOk then
        if hasGHI then
          let (res, ws) := loadRealFrames rest input
          (res.map (fun fs => frame c rows :: fs), ws)
        else
          let (res, ws) := loadRealFrames rest input
          (res, .missingGHI c :: ws)
      else (.error .parse, [])

/-- The `loc` parameter of `np.random.normal` per country
(`utils.py` lines 54-59). -/
def mockLoc : String → ℚ
  | "Benin" => 300
  | "Sierra_Leone" => 350
  | _ => 250

/-- The `scale` parameter of `np.random.normal` per country
(`utils.py` lines 54-59). -/
def mockScale : String → ℚ
  | "Benin" => 350
  | "Sierra_Leone" => 300
  | _ => 400

/-- One synthetic GHI sample: a normal draw `loc + scale * z c i` for a
noise oracle `z`, clamped to zero when negative (`ghi[ghi < 0] = 0`,
`utils.py` line 62). -/
def mockGhi (z : String → ℕ → ℚ) (c : String) (i : ℕ) : ℚ :=
  if mockLoc c + mockScale c * z c i < 0 then 0
  else mockLoc c + mockScale c * z c i

/-- Number of hourly timestamps in `pd.date_range('2022-01-01',
'2023-01-01', freq='H', inclusive='left')`: 365 days of 2022, 24 hours
each. -/
def mockHours : ℕ := 8760

/-- The synthetic frame for one country (`utils.py` lines 49-67): one
record per hour of 2022. -/
def mockCountry (z : String → ℕ → ℚ) (c : String) : List SRecord :=
  (List.range mockHours).map (fun i => ⟨c, i, mockGhi z c i⟩)

/-- The list of synthetic per-country frames built by the fallback. -/
def mockFrames (z : String → ℕ → ℚ) : List (List SRecord) :=
  COUNTRIES.map (fun c => mockCountry z c)

/-- The fully synthetic Combined Dataset. -/
def mockAll (z : String → ℕ → ℚ) : List SRecord :=
  (mockFrames z).flatten

/-- The final concatenation step (`utils.py` lines 69-76): raise
`ValueError` when no frames were produced, else `pd.concat`. -/
def finalize (frames : List (List SRecord)) (ws : List Warning) :
    Except LoadError (List SRecord) × List Warning :=
  if frames.isEmpty then (.error .noData, ws) else (.ok frames.flatten, ws)

/-- `load_and_preprocess_data` (`utils.py` lines 11-76): attempt the real
loop; on `FileNotFoundError` discard everything, warn, and regenerate all
countries synthetically; an uncaught parse error escapes; finally
concatenate, raising `ValueError` when nothing was collected. -/
def load (input : FileInput) (z : String → ℕ → ℚ) :
    Except LoadError (List SRecord) × List Warning :=
  match loadRealFrames COUNTRIES input with
  | (.error .parse, ws) => (.error .parseError, ws)
  | (.error .fnf, ws) => finalize (mockFrames z) (ws ++ [.usingMock])
  | (.ok frames, ws) => finalize frames ws

/-- The frames collected by a real-data loop that completes: one frame
per country whose file carries a GHI column, in country order. -/
def realFrames (cs : List String) (input : FileInput) : List (List SRecord) :=
  (cs.filter (fun c => fileHasGHI (input c))).map
    (fun c => frame c (fileRows (input c)))

/-- The GHI-column warnings of a completed real-data loop. -/
def ghiWarnings (cs : List String) (input : FileInput) : List Warning :=
  (cs.filter (fun c => !fileHasGHI (input c))).map (fun c => .missingGHI c)

/-! ## Aggregator functions (`utils.py` lines 78-127) -/

/-- Round half to even at integer precision, as `numpy`/`pandas` rounding
does (the float arithmetic of `Series.round` is embedded as exact
rational rounding).  `Int.fdiv q.num q.den` is the floor of `q`. -/
def roundHalfEven (q : ℚ) : ℤ :=
  let f : ℤ := Int.fdiv q.num q.den
  if q - f < 1/2 then f
  else if 1/2 < q - f then f + 1
  else if f % 2 = 0 then f else f + 1

/-- `Series.round(2)`: round to 2 decimal places. -/
def round2 (q : ℚ) : ℚ := (roundHalfEven (100 * q) : ℚ) / 100

/-- The records of one country (`df.groupby('Country')` group, or the
sidebar filter `df[df['Country'].isin(...)]` for a single country). -/
def perCountry (c : String) (df : List SRecord) : List SRecord :=
  df.filter (fun r => r.country = c)

/-- The sum of the GHI column. -/
def GHIsum (l : List SRecord) : ℚ := (l.map SRecord.ghi).sum

/-- Arithmetic mean of a country's GHI (`groupby('Country')['GHI'].mean()`). -/
def countryMean (c : String) (df : List SRecord) : ℚ :=
  GHIsum (perCountry c df) / (perCountry c df).length

/-- The distinct country tags of a dataframe (the group keys of
`groupby('Country')`).  pandas sorts group keys; the key order is only
observable through tie-breaking of the later value sort, which the spec
leaves implementation-defined, so the dedup order is kept. -/
def countryKeys (df : List SRecord) : List String :=
  (df.map SRecord.country).dedup

/-- `create_top_regions_table` (`utils.py` lines 117-127): mean GHI per
country, rounded to 2 decimals, sorted descending by the rounded mean. -/
def create_top_regions_table (df : List SRecord) : List (String × ℚ) :=
  List.insertionSort (fun a b : String × ℚ => b.2 ≤ a.2)
    ((countryKeys df).map (fun c => (c, round2 (countryMean c df))))

/-- Calendar day index of a record (`resample('D')` bucket): days since
2022-01-01. -/
def dayOf (r : SRecord) : ℕ := r.ts / 24

/-- `resample('W')` bucket of a calendar day: weekly bins ending Sunday
(2022-01-01 is a Saturday, so days 0-1 form the first bin). -/
def weekOfDay (d : ℕ) : ℕ := (d + 5) / 7

/-- Month lengths of the four-year cycle starting 2022 (2024 is leap). -/
def cycleMonths : List ℕ :=
  [31, 28, 31, 30, 31, 30, 31, 31, 30, 31, 30, 31] ++
  [31, 28, 31, 30, 31, 30, 31, 31, 30, 31, 30, 31] ++
  [31, 29, 31, 30, 31, 30, 31, 31, 30, 31, 30, 31] ++
  [31, 28, 31, 30, 31, 30, 31, 31, 30, 31, 30, 31]

/-- Month index within one 1461-day cycle: the number of months that end
on or before day `d`. -/
def monthOfDayAux (d : ℕ) : ℕ :=
  ((List.range 48).filter (fun m => (cycleMonths.take (m + 1)).sum ≤ d)).length

/-- `resample('M')` bucket of a calendar day: calendar months counted
from January 2022 (embedding the Gregorian calendar without the century
rule, exact on the window the data covers). -/
def monthOfDay (d : ℕ) : ℕ := 48 * (d / 1461) + monthOfDayAux (d % 1461)

/-- `resample('W')` bucket of a record. -/
def weekOf (r : SRecord) : ℕ := weekOfDay (dayOf r)

/-- `resample('M')` bucket of a record. -/
def monthOf (r : SRecord) : ℕ := monthOfDay (dayOf r)

/-- The granularity radio button of the sidebar (`main.py` lines 42-46). -/
inductive Granularity where
  | Daily | Weekly | Monthly
deriving DecidableEq

/-- The resampling bucket function selected by the granularity
(`utils.py` lines 99-104). -/
def bucketFn : Granularity → SRecord → ℕ
  | .Daily => dayOf
  | .Weekly => weekOf
  | .Monthly => monthOf

/-- The distinct bucket keys of a record list under a bucket function. -/
def keysBy (f : SRecord → ℕ) (l : List SRecord) : List ℕ :=
  (l.map f).dedup

/-- The records of one bucket. -/
def bucketBy (f : SRecord → ℕ) (k : ℕ) (l : List SRecord) : List SRecord :=
  l.filter (fun r => f r = k)

/-- The mean GHI of one bucket (`resample(...).mean()`). -/
def bucketMean (f : SRecord → ℕ) (k : ℕ) (l : List SRecord) : ℚ :=
  GHIsum (bucketBy f k l) / (bucketBy f k l).length

/-- `create_time_series_plot`'s tabular content (`utils.py` lines
94-104): `df.groupby('Country')['GHI'].resample(freq).mean()`, one row
per (country, bucket) pair carrying the bucket's mean GHI.  Buckets with
no observations are implementation-defined per the spec and are not
materialised here. -/
def create_time_series_plot (df : List SRecord) (g : Granularity) :
    List (String × ℕ × ℚ) :=
  (countryKeys df).flatMap (fun c =>
    (keysBy (bucketFn g) (perCountry c df)).map
      (fun b => (c, b, bucketMean (bucketFn g) b (perCountry c df))))

/-- `create_country_comparison_plot` (`utils.py` lines 78-92): the chart
specification is an identity transform of the filtered data (quantiles
are computed by the renderer, not in this layer). -/
def create_country_comparison_plot (df : List SRecord) : List SRecord := df

/-! ## The dashboard layout (`main.py` lines 17-110) -/

/-- What `main` renders: for each chart either its tabular content or
`none` when a neutral warning is shown instead, plus the Top Regions
table. -/
structure Layout where
  distWarning : Bool
  distChart : Option (List SRecord)
  topTable : List (String × ℚ)
  tsWarning : Bool
  tsChart : Option (List (String × ℕ × ℚ))
deriving DecidableEq

/-- The rendering decisions of `main` (`main.py` lines 48-88): filter the
combined dataframe by the selected countries; suppress the distribution
and time-series charts (showing a warning) when the filtered frame is
empty; always build the Top Regions table from the unfiltered frame. -/
def mainRender (df_combined : List SRecord) (selected : List String)
    (g : Granularity) : Layout :=
  let df_filtered := df_combined.filter (fun r => r.country ∈ selected)
  { distWarning := df_filtered.isEmpty
    distChart := if df_filtered.isEmpty then none
                 else some (create_country_comparison_plot df_filtered)
    topTable := create_top_regions_table df_combined
    tsWarning := df_filtered.isEmpty
    tsChart := if df_filtered.isEmpty then none
               else some (create_time_series_plot df_filtered g) }

/-! ## Claim-side aggregate formulas (spec section 8)

These follow the spec's words for the cross-granularity consistency
property; they are compared against the resampling embedded above. -/

/-- The unweighted mean of all daily bucket means of one country. -/
def dailyOverallMean (c : String) (df : List SRecord) : ℚ :=
  ((keysBy dayOf (perCountry c df)).map
      (fun d => bucketMean dayOf d (perCountry c df))).sum /
    (keysBy dayOf (perCountry c df)).length

/-- The number of data-bearing days of month `m` in a record list. -/
def monthDays (m : ℕ) (recs : List SRecord) : ℕ :=
  ((keysBy dayOf recs).filter (fun d => monthOfDay d = m)).length

/-- The monthly bucket means of one country averaged with day-count
weights. -/
def monthlyWeightedMean (c : String) (df : List SRecord) : ℚ :=
  ((keysBy monthOf (perCountry c df)).map
      (fun m => bucketMean monthOf m (perCountry c df) *
        monthDays m (perCountry c df))).sum /
    ((keysBy monthOf (perCountry c df)).map
      (fun m => (monthDays m (perCountry c df) : ℚ))).sum

/-! ## Generic list partition lemmas -/

section Partition

variable {α β : Type}

lemma mapSum_add (f g : β → ℚ) (K : List β) :
    (K.map (fun x => f x + g x)).sum = (K.map f).sum + (K.map g).sum := by
  induction K with
  | nil => simp
  | cons a K ih => simp [ih]; ring

lemma mapSum_div (f : β → ℚ) (c : ℚ) (K : List β) :
    (K.map (fun x => f x / c)).sum = (K.map f).sum / c := by
  induction K with
  | nil => simp
  | cons a K ih => simp [ih]; ring

lemma mapSum_const (c : ℚ) (K : List β) :
    (K.map (fun _ => c)).sum = K.length * c := by
  induction K with
  | nil => simp
  | cons a K ih => simp [ih]; ring

lemma mapOne_length (l : List α) :
    (l.map (fun _ => (1 : ℚ))).sum = l.length := by
  rw [mapSum_const]; simp

lemma sum_ite_of_not_mem [DecidableEq β] (b : β) (c : ℚ) (K : List β) (h : b ∉ K) :
    (K.map (fun κ => if b = κ then c else 0)).sum = 0 := by
  induction K with
  | nil => simp
  | cons a K ih =>
    have hba : b ≠ a := fun hb => h (hb ▸ List.mem_cons_self a K)
    simp [hba, ih (fun hb => h (List.mem_cons_of_mem a hb))]

lemma sum_ite_single [DecidableEq β] (b : β) (c : ℚ) (K : List β) (hn : K.Nodup)
    (hb : b ∈ K) : (K.map (fun κ => if b = κ then c else 0)).sum = c := by
  induction K with
  | nil => cases hb
  | cons a K ih =>
    rcases List.mem_cons.mp hb with rfl | hbK
    · have hnot : b ∉ K := (List.nodup_cons.mp hn).1
      simp [sum_ite_of_not_mem b c K hnot]
    · have hba : b ≠ a := by
        rintro rfl; exact (List.nodup_cons.mp hn).1 hbK
      simp [hba, ih (List.nodup_cons.mp hn).2 hbK]

/-- Summing a value over the fibers of a key function recovers the total
sum, for any duplicate-free list of keys covering the image. -/
lemma sum_partition [DecidableEq β] (f : α → β) (v : α → ℚ) (K : List β)
    (hn : K.Nodup) :
    ∀ l : List α, (∀ r ∈ l, f r ∈ K) →
      (K.map (fun κ => ((l.filter (fun r => f r = κ)).map v).sum)).sum =
        (l.map v).sum := by
  intro l
  induction l with
  | nil => simp
  | cons a l ih =>
    intro hc
    have step : ∀ κ ∈ K,
        (((a :: l).filter (fun r => f r = κ)).map v).sum =
          ((l.filter (fun r => f r = κ)).map v).sum +
            (if f a = κ then v a else 0) := by
      intro κ _
      by_cases h : f a = κ
      · simp [List.filter_cons, h]; ring
      · simp [List.filter_cons, h]
    rw [List.map_congr_left step, mapSum_add, ih (fun r hr => hc r (List.mem_cons_of_mem a hr)),
      sum_ite_single (f a) (v a) K hn (hc a (List.mem_cons_self a l))]
    simp [add_comm]

end Partition

/-! ## Structural lemmas about the loader -/

lemma lrf_fnf (cs : List String) (input : FileInput)
    (hp : ∀ c ∈ cs, fileParses (input c) = true)
    (hm : ∃ c ∈ cs, input c = .missing) :
    (loadRealFrames cs input).1 = .error .fnf := by
  induction cs with
  | nil => rcases hm with ⟨c, hc, _⟩; cases hc
  | cons c rest ih =>
    cases hin : input c with
    | missing => simp [loadRealFrames, hin]
    | present tsOk hasGHI rows =>
      have hts : tsOk = true := by
        have := hp c (List.mem_cons_self c rest); rw [hin] at this; exact this
      have hm' : ∃ c' ∈ rest, input c' = .missing := by
        rcases hm with ⟨c', hc', hmc'⟩
        rcases List.mem_cons.mp hc' with rfl | h
        · rw [hin] at hmc'; cases hmc'
        · exact ⟨c', h, hmc'⟩
      have htl := ih (fun c' hc' => hp c' (List.mem_cons_of_mem c hc')) hm'
      cases hasGHI <;>
        simp [loadRealFrames, hin, hts, htl, Except.map]

lemma lrf_complete (cs : List String) (input : FileInput)
    (hp : ∀ c ∈ cs, fileParses (input c) = true)
    (hnm : ∀ c ∈ cs, input c ≠ .missing) :
    loadRealFrames cs input =
      (.ok (realFrames cs input), ghiWarnings cs input) := by
  induction cs with
  | nil => simp [loadRealFrames, realFrames, ghiWarnings]
  | cons c rest ih =>
    cases hin : input c with
    | missing => exact absurd hin (hnm c (List.mem_cons_self c rest))
    | present tsOk hasGHI rows =>
      have hts : tsOk = true := by
        have := hp c (List.mem_cons_self c rest); rw [hin] at this; exact this
      have htl := ih (fun c' hc' => hp c' (List.mem_cons_of_mem c hc'))
        (fun c' hc' => hnm c' (List.mem_cons_of_mem c hc'))
      cases hasGHI <;>
        simp [loadRealFrames, hin, hts, htl, realFrames, ghiWarnings,
          List.filter_cons, fileHasGHI, fileRows, Except.map]

lemma finalize_snd (frames : List (List SRecord)) (ws : List Warning) :
    (finalize frames ws).2 = ws := by
  unfold finalize; split <;> rfl

lemma mockAll_length (z : String → ℕ → ℚ) : (mockAll z).length = 26280 := by
  simp [mockAll, mockFrames, COUNTRIES, mockCountry, mockHours]

lemma mockAll_ne_nil (z : String → ℕ → ℚ) : mockAll z ≠ [] := by
  intro h
  have := mockAll_length z
  rw [h] at this
  cases this

lemma load_of_fnf (input : FileInput) (z : String → ℕ → ℚ)
    (h : (loadRealFrames COUNTRIES input).1 = .error .fnf) :
    (load input z).1 = .ok (mockAll z) := by
  unfold load
  rcases hrw : loadRealFrames COUNTRIES input with ⟨res, ws⟩
  rw [hrw] at h
  simp only at h
  subst h
  have hne : (mockFrames z).isEmpty = false := by
    simp [mockFrames, COUNTRIES]
  simp [finalize, hne, mockAll]

lemma load_complete (input : FileInput) (z : String → ℕ → ℚ)
    (hp : ∀ c ∈ COUNTRIES, fileParses (input c) = true)
    (hnm : ∀ c ∈ COUNTRIES, input c ≠ .missing) :
    load input z =
      finalize (realFrames COUNTRIES input) (ghiWarnings COUNTRIES input) := by
  unfold load
  rw [lrf_complete COUNTRIES input hp hnm]

/-! ## Concrete inputs used by witnesses and counterexamples -/

/-- A degenerate noise oracle (all draws at the distribution mean). -/
def zZero : String → ℕ → ℚ := fun _ _ => 0

/-- Benin's file is absent; the other files are fine. -/
def inputMissingB : FileInput := fun c =>
  if c = "Benin" then .missing else .present true true [(0, 1)]

/-- Every file present and parseable, none has a GHI column. -/
def inputAllNoGHI : FileInput := fun _ => .present true false [(0, 1)]

/-- Every file present with a GHI column but zero data rows. -/
def inputNoRows : FileInput := fun _ => .present true true []

/-- Well-formed files, but Benin's single record has a negative GHI. -/
def inputNegGHI : FileInput := fun c =>
  if c = "Benin" then .present true true [(0, -1)]
  else .present true true [(0, 1)]

/-- Well-formed files: 24 hourly records per country. -/
def input72 : FileInput := fun _ =>
  .present true true ((List.range 24).map (fun i => (i, (1 : ℚ))))

/-- Benin's file is present and parseable but lacks the GHI column;
the other files are well-formed. -/
def inputSkipB : FileInput := fun c =>
  if c = "Benin" then .present true false [(0, 5)]
  else .present true true [(0, 1)]

/-- The Combined Dataset obtained from input files when every country's
file is present with a GHI column. -/
def realAll (input : FileInput) : List SRecord :=
  (COUNTRIES.map (fun c => frame c (fileRows (input c)))).flatten

/-- The spec's Ranked Summary example: countries A, B, C with mean GHI
300, 100 and 500. -/
def exampleABC : List SRecord :=
  [⟨"A", 0, 300⟩, ⟨"B", 0, 100⟩, ⟨"C", 0, 500⟩]

/-- One country, one day with one record (mean 0) and one day with three
records (mean 4): daily and day-weighted monthly aggregation disagree. -/
def df4 : List SRecord :=
  [⟨"X", 0, 0⟩, ⟨"X", 24, 4⟩, ⟨"X", 25, 4⟩, ⟨"X", 26, 4⟩]

/-- One country with exactly one record on each of two days. -/
def dfW4 : List SRecord := [⟨"Y", 0, 2⟩, ⟨"Y", 24, 4⟩]

/-- A one-record dataset. -/
def dfA : List SRecord := [⟨"A", 0, 1⟩]

/-! ## Claims -/

/-- C1: for every run of `load()` in which a file-not-found occurs (some
country's file is missing, and every present file parses so that the
loop's only abort is the `FileNotFoundError`), the returned Combined
Dataset is exactly the all-synthetic dataset for all three countries:
real data loaded before the failure is discarded and no mix of real and
synthetic records appears. -/
theorem c1_missing_file_all_synthetic (input : FileInput)
    (z : String → ℕ → ℚ)
    (hp : ∀ c ∈ COUNTRIES, fileParses (input c) = true)
    (hm : ∃ c ∈ COUNTRIES, input c = .missing) :
    (load input z).1 = .ok (mockAll z) :=
  load_of_fnf input z (lrf_fnf COUNTRIES input hp hm)

/-- Witness for C1 at a concrete input: Benin's file missing, the
others present and well-formed. -/
theorem c1_missing_file_all_synthetic_witness :
    (load inputMissingB zZero).1 = .ok (mockAll zZero) :=
  c1_missing_file_all_synthetic inputMissingB zZero (by decide) (by decide)

/-- C2 fails as stated: the synthetic path always produces data, so under
the claim `load()` could never raise and would always return a non-empty
dataset.  But (i) with every file present and none carrying a GHI column,
`load()` raises the hard no-data error without the synthetic path ever
running (no mock warning is emitted); and (ii) with every file present,
carrying GHI but zero rows, `load()` returns an *empty* Combined
Dataset. -/
theorem c2_hard_error_counterexample :
    (load inputAllNoGHI zZero).1 = .error .noData ∧
      Warning.usingMock ∉ (load inputAllNoGHI zZero).2 ∧
      (load inputNoRows zZero).1 = .ok ([] : List SRecord) := by
  decide

/-- C2 amended: assuming every present file parses, `load()` raises the
hard no-data error iff no file is missing and no file carries a GHI
column (the real path completed empty; the synthetic path only runs when
a file is missing and always produces data).  In every other situation a
Combined Dataset is returned, and it is non-empty iff the synthetic path
ran (some file missing) or some file with a GHI column has at least one
row. -/
theorem c2_hard_error_amended (input : FileInput) (z : String → ℕ → ℚ)
    (hp : ∀ c ∈ COUNTRIES, fileParses (input c) = true) :
    ((load input z).1 = .error .noData ↔
      (∀ c ∈ COUNTRIES, input c ≠ .missing) ∧
        ∀ c ∈ COUNTRIES, fileHasGHI (input c) = false) ∧
    ∀ ds, (load input z).1 = .ok ds →
      (ds ≠ [] ↔
        (∃ c ∈ COUNTRIES, input c = .missing) ∨
          ∃ c ∈ COUNTRIES, fileHasGHI (input c) = true ∧
            fileRows (input c) ≠ []) := by
  by_cases hm : ∃ c ∈ COUNTRIES, input c = FileData.missing
  · have hload := load_of_fnf input z (lrf_fnf COUNTRIES input hp hm)
    refine ⟨⟨fun h => ?_, fun h => ?_⟩, fun ds hds => ?_⟩
    · rw [hload] at h; cases h
    · rcases hm with ⟨c, hc, hmc⟩; exact absurd hmc (h.1 c hc)
    · rw [hload] at hds
      refine ⟨fun _ => Or.inl hm, fun _ => ?_⟩
      rw [← Except.ok.inj hds]
      exact mockAll_ne_nil z
  · push_neg at hm
    have hload := load_complete input z hp hm
    by_cases hg : ∀ c ∈ COUNTRIES, fileHasGHI (input c) = false
    · have hfe : COUNTRIES.filter (fun c => fileHasGHI (input c)) = [] := by
        rw [List.filter_eq_nil_iff]
        intro c hc
        simp [hg c hc]
      have hre : realFrames COUNTRIES input = [] := by
        simp [realFrames, hfe]
      rw [hre] at hload
      refine ⟨⟨fun _ => ⟨hm, hg⟩, fun _ => ?_⟩, fun ds hds => ?_⟩
      · simp [hload, finalize]
      · rw [hload] at hds
        simp [finalize] at hds
    · push_neg at hg
      obtain ⟨c0, hc0, hg0⟩ := hg
      rw [Bool.ne_false_iff] at hg0
      have hmem : c0 ∈ COUNTRIES.filter (fun c => fileHasGHI (input c)) :=
        List.mem_filter.mpr ⟨hc0, hg0⟩
      have hrne : (realFrames COUNTRIES input).isEmpty = false := by
        rw [List.isEmpty_eq_false]
        intro h
        rw [realFrames, List.map_eq_nil_iff] at h
        rw [h] at hmem
        cases hmem
      have hok : load input z =
          (.ok (realFrames COUNTRIES input).flatten,
            ghiWarnings COUNTRIES input) := by
        rw [hload, finalize, hrne]
        rfl
      refine ⟨⟨fun h => ?_, fun h => ?_⟩, fun ds hds => ?_⟩
      · rw [hok] at h; cases h
      · exact absurd (h.2 c0 hc0) (by simp [hg0])
      · rw [hok] at hds
        rw [← Except.ok.inj hds]
        constructor
        · intro hne
          have hex : ∃ fr ∈ realFrames COUNTRIES input, fr ≠ [] := by
            by_contra hcon
            push_neg at hcon
            exact hne (List.flatten_eq_nil_iff.mpr hcon)
          obtain ⟨fr, hfr, hfrne⟩ := hex
          obtain ⟨c, hcf, rfl⟩ := List.mem_map.mp hfr
          have hcC : c ∈ COUNTRIES := (List.mem_filter.mp hcf).1
          have hcg : fileHasGHI (input c) = true := by
            simpa using (List.mem_filter.mp hcf).2
          refine Or.inr ⟨c, hcC, hcg, fun hrows => ?_⟩
          exact hfrne (by simp [frame, hrows])
        · rintro (⟨c, hc, hmc⟩ | ⟨c, hcC, hcg, hrows⟩)
          · exact absurd hmc (hm c hc)
          · intro hnil
            have hcf : c ∈ COUNTRIES.filter (fun c' => fileHasGHI (input c')) :=
              List.mem_filter.mpr ⟨hcC, hcg⟩
            have hfrm : frame c (fileRows (input c)) ∈ realFrames COUNTRIES input :=
              List.mem_map_of_mem _ hcf
            have hfr0 : frame c (fileRows (input c)) = [] :=
              List.flatten_eq_nil_iff.mp hnil _ hfrm
            rw [frame, List.map_eq_nil_iff] at hfr0
            exact hrows hfr0

/-- Witness for the amended C2 at a concrete input: every file present
and parseable but without a GHI column. -/
theorem c2_hard_error_amended_witness :
    ((load inputAllNoGHI zZero).1 = .error .noData ↔
      (∀ c ∈ COUNTRIES, inputAllNoGHI c ≠ .missing) ∧
        ∀ c ∈ COUNTRIES, fileHasGHI (inputAllNoGHI c) = false) ∧
    ∀ ds, (load inputAllNoGHI zZero).1 = .ok ds →
      (ds ≠ [] ↔
        (∃ c ∈ COUNTRIES, inputAllNoGHI c = .missing) ∨
          ∃ c ∈ COUNTRIES, fileHasGHI (inputAllNoGHI c) = true ∧
            fileRows (inputAllNoGHI c) ≠ []) :=
  c2_hard_error_amended inputAllNoGHI zZero (by decide)

/-- Filtering a month's bucket down to one of its days yields exactly
that day's bucket: a day's records all lie in the day's month. -/
lemma bucket_day_of_month (l : List SRecord) (m d : ℕ)
    (hdm : monthOfDay d = m) :
    (bucketBy monthOf m l).filter (fun r => dayOf r = d) =
      bucketBy dayOf d l := by
  rw [bucketBy, bucketBy, List.filter_filter]
  refine List.filter_congr (fun r _ => ?_)
  by_cases hd : dayOf r = d
  · have hm : monthOf r = m := by rw [monthOf, hd, hdm]
    simp [hd, hm]
  · simp [hd]

/-- Aggregation consistency across granularities for a single country's
records: when every data-bearing day carries the same number `k` of
records, the unweighted mean of the daily bucket means equals the
monthly bucket means averaged with data-day-count weights. -/
lemma daily_monthly_consistency (l : List SRecord) (k : ℕ)
    (hne : l ≠ [])
    (hk : ∀ d ∈ keysBy dayOf l, (bucketBy dayOf d l).length = k) :
    ((keysBy dayOf l).map (fun d => bucketMean dayOf d l)).sum /
        (keysBy dayOf l).length =
      ((keysBy monthOf l).map
          (fun m => bucketMean monthOf m l * monthDays m l)).sum /
        ((keysBy monthOf l).map (fun m => (monthDays m l : ℚ))).sum := by
  have hdayKey : ∀ r ∈ l, dayOf r ∈ keysBy dayOf l := by
    intro r hr
    rw [keysBy, List.mem_dedup]
    exact List.mem_map_of_mem _ hr
  have hmonKey : ∀ r ∈ l, monthOf r ∈ keysBy monthOf l := by
    intro r hr
    rw [keysBy, List.mem_dedup]
    exact List.mem_map_of_mem _ hr
  have hk0 : (k : ℚ) ≠ 0 := by
    obtain ⟨r, hr⟩ := List.exists_mem_of_ne_nil l hne
    have hlen := hk _ (hdayKey r hr)
    have hpos : 0 < (bucketBy dayOf (dayOf r) l).length :=
      List.length_pos.mpr
        (List.ne_nil_of_mem (List.mem_filter.mpr ⟨hr, by simp⟩))
    rw [hlen] at hpos
    exact_mod_cast hpos.ne'
  have hdaily : ((keysBy dayOf l).map (fun d => bucketMean dayOf d l)).sum =
      GHIsum l / k := by
    have h1 : ∀ d ∈ keysBy dayOf l,
        bucketMean dayOf d l = GHIsum (bucketBy dayOf d l) / k := by
      intro d hd
      rw [bucketMean, hk d hd]
    rw [List.map_congr_left h1, mapSum_div]
    congr 1
    simpa [GHIsum, bucketBy] using
      sum_partition dayOf SRecord.ghi (keysBy dayOf l)
        (List.nodup_dedup _) l hdayKey
  have hmlen : ∀ m ∈ keysBy monthOf l,
      ((bucketBy monthOf m l).length : ℚ) = (monthDays m l : ℚ) * k := by
    intro m _
    have hnd : ((keysBy dayOf l).filter (fun d => monthOfDay d = m)).Nodup :=
      (List.nodup_dedup _).filter _
    have hcov : ∀ r ∈ bucketBy monthOf m l,
        dayOf r ∈ (keysBy dayOf l).filter (fun d => monthOfDay d = m) := by
      intro r hr
      have hrl : r ∈ l := (List.mem_filter.mp hr).1
      have hrm : monthOf r = m := by
        simpa using (List.mem_filter.mp hr).2
      refine List.mem_filter.mpr ⟨hdayKey r hrl, ?_⟩
      simpa [monthOf] using hrm
    have hpart := sum_partition dayOf (fun _ => (1 : ℚ))
      ((keysBy dayOf l).filter (fun d => monthOfDay d = m)) hnd
      (bucketBy monthOf m l) hcov
    rw [mapOne_length] at hpart
    have hinner : ∀ d ∈ (keysBy dayOf l).filter (fun d => monthOfDay d = m),
        (((bucketBy monthOf m l).filter
            (fun r => dayOf r = d)).map (fun _ => (1 : ℚ))).sum = (k : ℚ) := by
      intro d hd
      have hdm : monthOfDay d = m := by
        simpa using (List.mem_filter.mp hd).2
      have hdk : d ∈ keysBy dayOf l := (List.mem_filter.mp hd).1
      rw [bucket_day_of_month l m d hdm, mapOne_length, hk d hdk]
    rw [List.map_congr_left hinner, mapSum_const] at hpart
    rw [monthDays, ← hpart]
  have hw0 : ∀ m ∈ keysBy monthOf l, (monthDays m l : ℚ) ≠ 0 := by
    intro m hm
    rw [keysBy, List.mem_dedup] at hm
    obtain ⟨r, hr, hrm⟩ := List.mem_map.mp hm
    have hmem : dayOf r ∈ (keysBy dayOf l).filter (fun d => monthOfDay d = m) := by
      refine List.mem_filter.mpr ⟨hdayKey r hr, ?_⟩
      simpa [monthOf] using hrm
    have hpos : 0 < monthDays m l := by
      rw [monthDays]
      exact List.length_pos.mpr (List.ne_nil_of_mem hmem)
    exact_mod_cast hpos.ne'
  have hnum : ((keysBy monthOf l).map
      (fun m => bucketMean monthOf m l * monthDays m l)).sum =
        GHIsum l / k := by
    have h1 : ∀ m ∈ keysBy monthOf l,
        bucketMean monthOf m l * monthDays m l =
          GHIsum (bucketBy monthOf m l) / k := by
      intro m hm
      rw [bucketMean, hmlen m hm]
      have hw := hw0 m hm
      field_simp
      ring
    rw [List.map_congr_left h1, mapSum_div]
    congr 1
    simpa [GHIsum, bucketBy] using
      sum_partition monthOf SRecord.ghi (keysBy monthOf l)
        (List.nodup_dedup _) l hmonKey
  have hden : ((keysBy monthOf l).map (fun m => (monthDays m l : ℚ))).sum =
      ((keysBy dayOf l).length : ℚ) := by
    have hcov : ∀ d ∈ keysBy dayOf l, monthOfDay d ∈ keysBy monthOf l := by
      intro d hd
      rw [keysBy, List.mem_dedup] at hd ⊢
      obtain ⟨r, hr, rfl⟩ := List.mem_map.mp hd
      exact List.mem_map_of_mem _ hr
    have hpart := sum_partition (α := ℕ) monthOfDay (fun _ => (1 : ℚ))
      (keysBy monthOf l) (List.nodup_dedup _) (keysBy dayOf l) hcov
    rw [mapOne_length] at hpart
    have hinner : ∀ m ∈ keysBy monthOf l,
        (((keysBy dayOf l).filter
            (fun d => monthOfDay d = m)).map (fun _ => (1 : ℚ))).sum =
          (monthDays m l : ℚ) := by
      intro m _
      rw [mapOne_length, monthDays]
    rw [List.map_congr_left hinner] at hpart
    exact hpart
  rw [hdaily, hnum, hden]

/-- C4 fails as stated: one country, one day holding a single record of
GHI 0 and a second day of the same month holding three records of GHI 4.
The unweighted mean of the daily means is 2, while the day-count-weighted
monthly mean is 3 (there is a single month, so every reading of its
day-count weight gives its plain mean 3). -/
theorem c4_consistency_counterexample :
    dailyOverallMean "X" df4 = 2 ∧ monthlyWeightedMean "X" df4 = 3 ∧
      dailyOverallMean "X" df4 ≠ monthlyWeightedMean "X" df4 :=
  ⟨of_decide_eq_true (by with_unfolding_all rfl),
    of_decide_eq_true (by with_unfolding_all rfl),
    of_decide_eq_true (by with_unfolding_all rfl)⟩

/-- C4 amended: for every Combined Dataset and country with records in
it, IF every data-bearing day of that country carries the same number of
records (as strictly hourly data does), THEN resampling daily and taking
the unweighted mean of the daily bucket means equals resampling monthly
and averaging the monthly bucket means weighted by each month's count of
data-bearing days (exact over ℚ, hence within any floating-point
tolerance). -/
theorem c4_consistency_amended (df : List SRecord) (c : String) (k : ℕ)
    (hne : perCountry c df ≠ [])
    (hk : ∀ d ∈ keysBy dayOf (perCountry c df),
      (bucketBy dayOf d (perCountry c df)).length = k) :
    dailyOverallMean c df = monthlyWeightedMean c df := by
  rw [dailyOverallMean, monthlyWeightedMean]
  exact daily_monthly_consistency (perCountry c df) k hne hk

/-- Witness for the amended C4: one country with exactly one record on
each of two days. -/
theorem c4_consistency_amended_witness :
    (perCountry "Y" dfW4 ≠ []) ∧
      dailyOverallMean "Y" dfW4 = monthlyWeightedMean "Y" dfW4 :=
  ⟨by decide, c4_consistency_amended dfW4 "Y" 1 (by decide) (by decide)⟩

/-- C5: whenever the synthetic fallback runs, each country's generated
series has one record per hour of the fixed one-year window (timestamps
are exactly hours 0..8759 of 2022), every GHI value is non-negative after
clamping, and the per-country normal-distribution parameters
(mean, standard deviation) are pairwise distinct.  The normal draw is
embedded as `loc + scale * noise` for an arbitrary noise oracle. -/
theorem c5_synthetic_shape (z : String → ℕ → ℚ) (c : String)
    (_hc : c ∈ COUNTRIES) :
    ((mockCountry z c).map SRecord.ts = List.range mockHours) ∧
      (∀ r ∈ mockCountry z c, 0 ≤ r.ghi) ∧
      (COUNTRIES.map (fun c' => (mockLoc c', mockScale c'))).Nodup := by
  refine ⟨?_, ?_, by decide⟩
  · rw [mockCountry, List.map_map]
    have hcomp : (SRecord.ts ∘ fun i => (⟨c, i, mockGhi z c i⟩ : SRecord)) =
        fun i => i := rfl
    rw [hcomp]
    simp
  · intro r hr
    obtain ⟨i, hi, rfl⟩ := List.mem_map.mp hr
    simp only [mockGhi]
    split_ifs with h
    · exact le_refl 0
    · exact le_of_not_lt h

/-- Witness for C5: a concrete noise oracle and country. -/
theorem c5_synthetic_shape_witness :
    ((mockCountry zZero "Benin").map SRecord.ts = List.range mockHours) ∧
      (∀ r ∈ mockCountry zZero "Benin", 0 ≤ r.ghi) ∧
      (COUNTRIES.map (fun c' => (mockLoc c', mockScale c'))).Nodup :=
  c5_synthetic_shape zZero "Benin" (by decide)

/-- C6 fails as stated: with every file present, parseable and carrying a
GHI column — well-formed in the claim's sense — a negative GHI value in a
file flows through `load()` unclamped, so the returned dataset need not
have all GHI values `≥ 0`. -/
theorem c6_wellformed_counterexample :
    (∀ c ∈ COUNTRIES, fileParses (inputNegGHI c) = true) ∧
      (∀ c ∈ COUNTRIES, inputNegGHI c ≠ .missing) ∧
      (∀ c ∈ COUNTRIES, fileHasGHI (inputNegGHI c) = true) ∧
      (load inputNegGHI zZero).1 =
        .ok [⟨"Benin", 0, -1⟩, ⟨"Sierra_Leone", 0, 1⟩, ⟨"Togo", 0, 1⟩] ∧
      ¬ (0 ≤ (⟨"Benin", 0, -1⟩ : SRecord).ghi) := by
  decide

/-- C6 amended: for well-formed input files over the fixed country set
whose GHI values are non-negative, `load()` returns the concatenation of
the per-country frames, its row count is the sum of the per-country row
counts, and all its GHI values are `≥ 0`; in particular three countries
with 24 hourly records each yield exactly 72 rows. -/
theorem c6_wellformed_amended (input : FileInput) (z : String → ℕ → ℚ)
    (hp : ∀ c ∈ COUNTRIES, fileParses (input c) = true)
    (hnm : ∀ c ∈ COUNTRIES, input c ≠ .missing)
    (hg : ∀ c ∈ COUNTRIES, fileHasGHI (input c) = true)
    (hpos : ∀ c ∈ COUNTRIES, ∀ p ∈ fileRows (input c), 0 ≤ p.2) :
    (load input z).1 = .ok (realAll input) ∧
      (realAll input).length =
        (COUNTRIES.map (fun c => (fileRows (input c)).length)).sum ∧
      (∀ r ∈ realAll input, 0 ≤ r.ghi) ∧
      ((load input72 zZero).1 = .ok (realAll input72) ∧
        (realAll input72).length = 72) := by
  have hfs : COUNTRIES.filter (fun c => fileHasGHI (input c)) = COUNTRIES :=
    List.filter_eq_self.mpr (fun c hcm => by simp [hg c hcm])
  have hre : realFrames COUNTRIES input =
      COUNTRIES.map (fun c => frame c (fileRows (input c))) := by
    rw [realFrames, hfs]
  have hned : (realFrames COUNTRIES input).isEmpty = false := by
    rw [hre]; simp [COUNTRIES]
  refine ⟨?_, ?_, ?_, by decide⟩
  · rw [load_complete input z hp hnm, finalize, hned]
    simp [hre, realAll]
  · rw [realAll, List.length_flatten, List.map_map]
    congr 1
    refine List.map_congr_left (fun c _ => ?_)
    simp [frame]
  · intro r hr
    obtain ⟨fr, hfr, hrfr⟩ := List.mem_flatten.mp hr
    obtain ⟨c, hcm, rfl⟩ := List.mem_map.mp hfr
    obtain ⟨p, hpm, rfl⟩ := List.mem_map.mp hrfr
    exact hpos c hcm p hpm

/-- Witness for the amended C6: three well-formed files with 24 hourly
unit records each. -/
theorem c6_wellformed_amended_witness :
    (load input72 zZero).1 = .ok (realAll input72) ∧
      (realAll input72).length =
        (COUNTRIES.map (fun c => (fileRows (input72 c)).length)).sum ∧
      (∀ r ∈ realAll input72, 0 ≤ r.ghi) ∧
      ((load input72 zZero).1 = .ok (realAll input72) ∧
        (realAll input72).length = 72) :=
  c6_wellformed_amended input72 zZero (by decide) (by decide) (by decide)
    (by decide)

/-- C7: when a country's file is present and parseable but lacks the GHI
column (and the other files are well-formed), `load()` emits the
user-visible warning for that country, raises no error, and returns the
other countries' records with none for the skipped country. -/
theorem c7_skip_missing_ghi (input : FileInput) (z : String → ℕ → ℚ)
    (c₀ : String)
    (hp : ∀ c ∈ COUNTRIES, fileParses (input c) = true)
    (hnm : ∀ c ∈ COUNTRIES, input c ≠ .missing)
    (hc : c₀ ∈ COUNTRIES)
    (hg0 : fileHasGHI (input c₀) = false)
    (hothers : ∀ c ∈ COUNTRIES, c ≠ c₀ → fileHasGHI (input c) = true) :
    Warning.missingGHI c₀ ∈ (load input z).2 ∧
      (load input z).1 = .ok (realFrames COUNTRIES input).flatten ∧
      (∀ r ∈ (realFrames COUNTRIES input).flatten, r.country ≠ c₀) ∧
      ∀ c ∈ COUNTRIES, c ≠ c₀ → ∀ p ∈ fileRows (input c),
        (⟨c, p.1, p.2⟩ : SRecord) ∈ (realFrames COUNTRIES input).flatten := by
  have hload := load_complete input z hp hnm
  have hex : ∃ c1 ∈ COUNTRIES, c1 ≠ c₀ := by
    have hc' : c₀ = "Benin" ∨ c₀ = "Sierra_Leone" ∨ c₀ = "Togo" := by
      simpa [COUNTRIES] using hc
    rcases hc' with rfl | rfl | rfl
    · exact ⟨"Togo", by decide, by decide⟩
    · exact ⟨"Benin", by decide, by decide⟩
    · exact ⟨"Benin", by decide, by decide⟩
  obtain ⟨c1, hc1, hne1⟩ := hex
  have hmem : c1 ∈ COUNTRIES.filter (fun c => fileHasGHI (input c)) :=
    List.mem_filter.mpr ⟨hc1, hothers c1 hc1 hne1⟩
  have hrne : (realFrames COUNTRIES input).isEmpty = false := by
    rw [List.isEmpty_eq_false]
    intro h
    rw [realFrames, List.map_eq_nil_iff] at h
    rw [h] at hmem
    cases hmem
  have hok : load input z =
      (.ok (realFrames COUNTRIES input).flatten,
        ghiWarnings COUNTRIES input) := by
    rw [hload, finalize, hrne]
    rfl
  refine ⟨?_, by rw [hok], ?_, ?_⟩
  · rw [hok]
    refine List.mem_map_of_mem _ (List.mem_filter.mpr ⟨hc, ?_⟩)
    simp [hg0]
  · intro r hr
    obtain ⟨fr, hfr, hrfr⟩ := List.mem_flatten.mp hr
    obtain ⟨c, hcf, rfl⟩ := List.mem_map.mp hfr
    obtain ⟨p, hpm, rfl⟩ := List.mem_map.mp hrfr
    intro hcc
    have hcg : fileHasGHI (input c) = true := by
      simpa using (List.mem_filter.mp hcf).2
    rw [show (⟨c, p.1, p.2⟩ : SRecord).country = c from rfl] at hcc
    rw [hcc, hg0] at hcg
    cases hcg
  · intro c hcC hneq p hpm
    refine List.mem_flatten.mpr ⟨frame c (fileRows (input c)), ?_, ?_⟩
    · exact List.mem_map_of_mem _
        (List.mem_filter.mpr ⟨hcC, hothers c hcC hneq⟩)
    · exact List.mem_map_of_mem _ hpm

/-- Witness for C7: Benin's file present without a GHI column, the other
two files well-formed. -/
theorem c7_skip_missing_ghi_witness :
    Warning.missingGHI "Benin" ∈ (load inputSkipB zZero).2 ∧
      (load inputSkipB zZero).1 =
        .ok (realFrames COUNTRIES inputSkipB).flatten ∧
      (∀ r ∈ (realFrames COUNTRIES inputSkipB).flatten,
        r.country ≠ "Benin") ∧
      ∀ c ∈ COUNTRIES, c ≠ "Benin" → ∀ p ∈ fileRows (inputSkipB c),
        (⟨c, p.1, p.2⟩ : SRecord) ∈ (realFrames COUNTRIES inputSkipB).flatten :=
  c7_skip_missing_ghi inputSkipB zZero "Benin" (by decide) (by decide)
    (by decide) (by decide) (by decide)

/-- C3: for every non-empty Combined Dataset, the Ranked Summary has one
row per country, each row carries the country's mean GHI rounded to 2
decimal places, the rows are sorted in descending order of the rounded
mean, and on the spec's example (means 300, 100, 500 for A, B, C) the
order is exactly [C, A, B]. -/
theorem c3_ranked_summary (df : List SRecord) (_h : df ≠ []) :
    ((create_top_regions_table df).map Prod.fst).Perm (countryKeys df) ∧
      (∀ p ∈ create_top_regions_table df,
        p.2 = round2 (countryMean p.1 df)) ∧
      List.Sorted (fun a b : String × ℚ => b.2 ≤ a.2)
        (create_top_regions_table df) ∧
      create_top_regions_table exampleABC =
        [("C", 500), ("A", 300), ("B", 100)] := by
  haveI hTot : IsTotal (String × ℚ) (fun a b => b.2 ≤ a.2) :=
    ⟨fun a b => le_total b.2 a.2⟩
  haveI hTrans : IsTrans (String × ℚ) (fun a b => b.2 ≤ a.2) :=
    ⟨fun _ _ _ hab hbc => le_trans hbc hab⟩
  refine ⟨?_, ?_, ?_, of_decide_eq_true (by with_unfolding_all rfl)⟩
  · have hperm := List.perm_insertionSort (fun a b : String × ℚ => b.2 ≤ a.2)
      ((countryKeys df).map (fun c => (c, round2 (countryMean c df))))
    have hmap := hperm.map Prod.fst
    rw [List.map_map] at hmap
    have hcomp :
        (Prod.fst ∘ fun c => (c, round2 (countryMean c df))) = fun c => c :=
      rfl
    rw [hcomp] at hmap
    simpa [create_top_regions_table] using hmap
  · intro p hp
    rw [create_top_regions_table, List.mem_insertionSort] at hp
    obtain ⟨c, _, rfl⟩ := List.mem_map.mp hp
    rfl
  · exact List.sorted_insertionSort (fun a b : String × ℚ => b.2 ≤ a.2) _

/-- Witness for C3 at the spec's example dataset. -/
theorem c3_ranked_summary_witness :
    ((create_top_regions_table exampleABC).map Prod.fst).Perm
        (countryKeys exampleABC) ∧
      (∀ p ∈ create_top_regions_table exampleABC,
        p.2 = round2 (countryMean p.1 exampleABC)) ∧
      List.Sorted (fun a b : String × ℚ => b.2 ≤ a.2)
        (create_top_regions_table exampleABC) ∧
      create_top_regions_table exampleABC =
        [("C", 500), ("A", 300), ("B", 100)] :=
  c3_ranked_summary exampleABC (by decide)

/-- C8: for every non-empty Combined Dataset and every granularity, the
Trend Series groups by country and resamples by the chosen calendar
bucket: it has exactly one row per (country, bucket) pair — the pairs are
duplicate-free and a pair occurs iff some record realises it — each row
carries the bucket's mean GHI, and no country present in the input is
dropped. -/
theorem c8_trend_series (df : List SRecord) (g : Granularity)
    (_h : df ≠ []) :
    (∀ c ∈ df.map SRecord.country,
      ∃ row ∈ create_time_series_plot df g, row.1 = c) ∧
      ((create_time_series_plot df g).map
        (fun row => (row.1, row.2.1))).Nodup ∧
      (∀ c b,
        (c, b) ∈ (create_time_series_plot df g).map
            (fun row => (row.1, row.2.1)) ↔
          ∃ r ∈ df, r.country = c ∧ bucketFn g r = b) ∧
      ∀ row ∈ create_time_series_plot df g,
        row.2.2 = bucketMean (bucketFn g) row.2.1 (perCountry row.1 df) := by
  have hmap : (create_time_series_plot df g).map
      (fun row => (row.1, row.2.1)) =
        (countryKeys df).flatMap
          (fun c => (keysBy (bucketFn g) (perCountry c df)).map
            (fun b => (c, b))) := by
    rw [create_time_series_plot, List.map_flatMap]
    have hin : ∀ c : String,
        ((keysBy (bucketFn g) (perCountry c df)).map
            (fun b => (c, b, bucketMean (bucketFn g) b
              (perCountry c df)))).map (fun row => (row.1, row.2.1)) =
          (keysBy (bucketFn g) (perCountry c df)).map (fun b => (c, b)) := by
      intro c
      rw [List.map_map]
      rfl
    simp only [hin]
  refine ⟨?_, ?_, ?_, ?_⟩
  · intro c hc
    have hck : c ∈ countryKeys df := by
      rw [countryKeys, List.mem_dedup]
      exact hc
    obtain ⟨r, hr, hrc⟩ := List.mem_map.mp hc
    have hrp : r ∈ perCountry c df :=
      List.mem_filter.mpr ⟨hr, by simp [hrc]⟩
    have hbk : bucketFn g r ∈ keysBy (bucketFn g) (perCountry c df) := by
      rw [keysBy, List.mem_dedup]
      exact List.mem_map_of_mem _ hrp
    refine ⟨(c, bucketFn g r,
      bucketMean (bucketFn g) (bucketFn g r) (perCountry c df)), ?_, rfl⟩
    rw [create_time_series_plot]
    exact List.mem_flatMap.mpr ⟨c, hck, List.mem_map_of_mem _ hbk⟩
  · rw [hmap]
    refine List.nodup_flatMap.mpr ⟨?_, ?_⟩
    · intro c _
      exact (List.nodup_dedup _).map
        (fun b b' hbb => congrArg Prod.snd hbb)
    · refine (List.nodup_dedup _).imp ?_
      intro c c' hne x hx hx'
      obtain ⟨b, _, rfl⟩ := List.mem_map.mp hx
      obtain ⟨b', _, heq⟩ := List.mem_map.mp hx'
      exact hne (congrArg Prod.fst heq).symm
  · intro c b
    rw [hmap]
    constructor
    · intro hx
      obtain ⟨c', hc', hin⟩ := List.mem_flatMap.mp hx
      obtain ⟨b', hb', heq⟩ := List.mem_map.mp hin
      obtain rfl : c = c' := (congrArg Prod.fst heq).symm
      obtain rfl : b = b' := (congrArg Prod.snd heq).symm
      rw [keysBy, List.mem_dedup] at hb'
      obtain ⟨r, hr, rfl⟩ := List.mem_map.mp hb'
      have hrdf : r ∈ df := (List.mem_filter.mp hr).1
      have hrc : r.country = c := by
        simpa using (List.mem_filter.mp hr).2
      exact ⟨r, hrdf, hrc, rfl⟩
    · rintro ⟨r, hr, hrc, rfl⟩
      have hck : c ∈ countryKeys df := by
        rw [countryKeys, List.mem_dedup]
        exact hrc ▸ List.mem_map_of_mem _ hr
      have hrp : r ∈ perCountry c df :=
        List.mem_filter.mpr ⟨hr, by simp [hrc]⟩
      have hbk : bucketFn g r ∈ keysBy (bucketFn g) (perCountry c df) := by
        rw [keysBy, List.mem_dedup]
        exact List.mem_map_of_mem _ hrp
      exact List.mem_flatMap.mpr ⟨c, hck, List.mem_map_of_mem _ hbk⟩
  · intro row hrow
    rw [create_time_series_plot] at hrow
    obtain ⟨c, _, hin⟩ := List.mem_flatMap.mp hrow
    obtain ⟨b, _, rfl⟩ := List.mem_map.mp hin
    rfl

/-- Witness for C8 at a one-record dataset with daily granularity. -/
theorem c8_trend_series_witness :
    (∀ c ∈ dfA.map SRecord.country,
      ∃ row ∈ create_time_series_plot dfA Granularity.Daily, row.1 = c) ∧
      ((create_time_series_plot dfA Granularity.Daily).map
        (fun row => (row.1, row.2.1))).Nodup ∧
      (∀ c b,
        (c, b) ∈ (create_time_series_plot dfA Granularity.Daily).map
            (fun row => (row.1, row.2.1)) ↔
          ∃ r ∈ dfA, r.country = c ∧ bucketFn Granularity.Daily r = b) ∧
      ∀ row ∈ create_time_series_plot dfA Granularity.Daily,
        row.2.2 = bucketMean (bucketFn Granularity.Daily) row.2.1
          (perCountry row.1 dfA) :=
  c8_trend_series dfA Granularity.Daily (by decide)

/-- C9: when the user deselects all countries, the filtered subset is
empty, both the distribution comparison and the time-series chart are
suppressed in favour of a neutral warning, and no aggregation is computed
on the empty subset (`mainRender` is total, so no exception occurs). -/
theorem c9_empty_filter (df : List SRecord) (g : Granularity) :
    (mainRender df [] g).distChart = none ∧
      (mainRender df [] g).tsChart = none ∧
      (mainRender df [] g).distWarning = true ∧
      (mainRender df [] g).tsWarning = true := by
  have hf : df.filter (fun r => decide (r.country ∈ ([] : List String))) = [] := by
    simp
  refine ⟨?_, ?_, ?_, ?_⟩ <;> simp [mainRender, hf]

/-- C10: the Top Regions table is computed from the full, unfiltered
Combined Dataset; changing the country filter or the granularity never
changes it. -/
theorem c10_table_unfiltered (df : List SRecord)
    (sel sel' : List String) (g g' : Granularity) :
    (mainRender df sel g).topTable = create_top_regions_table df ∧
      (mainRender df sel g).topTable = (mainRender df sel' g').topTable :=
  ⟨rfl, rfl⟩

end Solar
